import Mathlib

/-!
Verification development for the `sj-assistant` persistence layer
(`src/js/storage.js`, the `Storage` module backed by IndexedDB with an
in-memory fallback).

Shallow embedding conventions:
* Times (`Date.now()` values and ISO `createdAt`/`updatedAt` strings, which
  are order-isomorphic to their millisecond instants) are modelled as `Nat`.
  A single operation uses one clock reading `now` for both the message
  timestamp default and the `updatedAt` refresh; in the JS source these are
  two reads of the same clock microseconds apart within one call.
* `localStorage` is an association list from keys to stored strings; a
  stored string is either the JSON encoding of a flat preference object
  (`JSON.stringify`/`JSON.parse` round-trip) or a corrupt value on which
  `JSON.parse` throws.
* The IndexedDB `conversations` object store (`keyPath: 'id'`,
  `autoIncrement: true`) is a record list in key order together with the
  key generator's next value; per IndexedDB semantics `clear()` does not
  reset the generator, and `add` injects the generated key into the record.
* JavaScript `try`/`catch` around a transaction is modelled by a `dbFails`
  flag on each facade operation: `true` means the IndexedDB transaction
  throws (quota, internal error) and the `catch` branch runs.
-/

/-- Stored string in `localStorage`: either the JSON encoding of a flat
string-to-string preference/profile object, or a corrupt entry on which
`JSON.parse` throws. -/
inductive StoredStr where
  | encPrefs (p : List (String × String))
  | corrupt
  deriving DecidableEq, Repr

/-- Model of `localStorage`: association list from keys to stored strings. -/
abbrev LocalStore := List (String × StoredStr)

/-- Model of `localStorage.getItem`. -/
def getItem (ls : LocalStore) (k : String) : Option StoredStr :=
  (ls.find? (fun kv => kv.1 = k)).map (fun kv => kv.2)

/-- Model of `localStorage.setItem`: replaces any existing entry for the key. -/
def setItem (ls : LocalStore) (k : String) (v : StoredStr) : LocalStore :=
  (k, v) :: ls.filter (fun kv => kv.1 ≠ k)

/-- Model of `localStorage.removeItem`. -/
def removeItem (ls : LocalStore) (k : String) : LocalStore :=
  ls.filter (fun kv => kv.1 ≠ k)

/-- Storage.savePreferences (src/js/storage.js:263-271): stringifies the whole
preference object into the `userPreferences` entry; returns a success flag. -/
def savePreferences (preferences : List (String × String)) (ls : LocalStore) :
    Bool × LocalStore :=
  (true, setItem ls "userPreferences" (.encPrefs preferences))

/-- Storage.loadPreferences (src/js/storage.js:277-285): reads the
`userPreferences` entry; returns the parsed object, or the empty object when
the entry is absent, or — via the `catch` branch, which only logs — the empty
object when the entry fails to decode. The function never removes the entry,
so the post-call `localStorage` state is returned unchanged. -/
def loadPreferences (ls : LocalStore) : List (String × String) × LocalStore :=
  match getItem ls "userPreferences" with
  | none => ([], ls)
  | some (.encPrefs p) => (p, ls)
  | some .corrupt => ([], ls)

/-- Storage.saveUserProfile (src/js/storage.js:335-343). -/
def saveUserProfile (profile : List (String × String)) (ls : LocalStore) :
    Bool × LocalStore :=
  (true, setItem ls "userProfile" (.encPrefs profile))

/-- Storage.loadUserProfile (src/js/storage.js:349-357). -/
def loadUserProfile (ls : LocalStore) : List (String × String) × LocalStore :=
  match getItem ls "userProfile" with
  | none => ([], ls)
  | some (.encPrefs p) => (p, ls)
  | some .corrupt => ([], ls)

/-- Stored message record: the caller's `role`/`content` with the metadata
added by `addMessage` (timestamp default and generated string id). -/
structure Message where
  role : String
  content : String
  timestamp : Nat
  id : String
  deriving DecidableEq, Repr

/-- Caller-supplied message value for `addMessage` (`{role, content}` with an
optional `timestamp` field). -/
structure MsgInput where
  role : String
  content : String
  timestamp : Option Nat
  deriving DecidableEq, Repr

/-- Metadata enrichment in Storage.addMessage (src/js/storage.js:428-432):
`{...message, timestamp: message.timestamp || Date.now(), id:
msg_<now>_<random suffix>}`. The JS `||` treats a timestamp of `0` as absent. -/
def mkMessageWithMeta (m : MsgInput) (now : Nat) (rand : String) : Message :=
  { role := m.role
    content := m.content
    timestamp := match m.timestamp with
      | some t => if t ≠ 0 then t else now
      | none => now
    id := "msg_" ++ toString now ++ "_" ++ rand }

/-- Conversation record as persisted: `{id, title, messages[], timestamp,
createdAt, updatedAt}`. The id is `none` before a backend assigns a key (and
for records pushed into the fallback array by the import path, which never
assigns one). -/
structure Conversation where
  id : Option Nat
  title : String
  messages : List Message
  timestamp : Nat
  createdAt : Nat
  updatedAt : Nat
  deriving DecidableEq, Repr

/-- Fresh conversation value built by Storage.startConversation
(src/js/storage.js:385-391): empty message list, both timestamps now; the
title defaults from the creation date when absent (JS `title || ...`, so the
empty string also triggers the default). -/
def mkConversation (title : Option String) (now : Nat) : Conversation :=
  { id := none
    title := match title with
      | some t => if t ≠ "" then t else "Conversation " ++ toString now
      | none => "Conversation " ++ toString now
    messages := []
    timestamp := now
    createdAt := now
    updatedAt := now }

/-- Summary shape returned by the fallback listing (src/js/storage.js:551-560). -/
structure ConversationSummary where
  id : Option Nat
  title : String
  timestamp : Nat
  createdAt : Nat
  updatedAt : Nat
  messageCount : Nat
  deriving DecidableEq, Repr

/-- Storage._fallbackStartConversation (src/js/storage.js:412-417): the id is
`conversations.length + 1` and the record is pushed at the end. -/
def fallbackStartConversation (fb : List Conversation) (conversation : Conversation) :
    Nat × List Conversation :=
  let id := fb.length + 1
  (id, fb ++ [{ conversation with id := some id }])

/-- Storage._fallbackAddMessage (src/js/storage.js:485-495): `find` the first
record with the id, push the message and refresh `updatedAt`; returns `false`
and leaves the array untouched when no record matches. -/
def fallbackAddMessage (fb : List Conversation) (conversationId : Nat)
    (message : Message) (now : Nat) : Bool × List Conversation :=
  match fb with
  | [] => (false, [])
  | c :: rest =>
    if c.id = some conversationId then
      (true, { c with messages := c.messages ++ [message], updatedAt := now } :: rest)
    else
      let r := fallbackAddMessage rest conversationId message now
      (r.1, c :: r.2)

/-- Storage._fallbackFetchConversation (src/js/storage.js:524-526): first
record with the id, or `null`. -/
def fallbackFetchConversation (fb : List Conversation) (conversationId : Nat) :
    Option Conversation :=
  fb.find? (fun c => c.id = some conversationId)

/-- Storage._fallbackFetchAllConversations (src/js/storage.js:551-560):
summary projection of every record, in insertion order. -/
def fallbackFetchAllConversations (fb : List Conversation) : List ConversationSummary :=
  fb.map (fun c =>
    { id := c.id
      title := c.title
      timestamp := c.timestamp
      createdAt := c.createdAt
      updatedAt := c.updatedAt
      messageCount := c.messages.length })

/-- Storage._fallbackDeleteConversation (src/js/storage.js:589-598):
`findIndex` then `splice(index, 1)` — removes the first matching record. -/
def fallbackDeleteConversation (fb : List Conversation) (conversationId : Nat) :
    Bool × List Conversation :=
  match fb with
  | [] => (false, [])
  | c :: rest =>
    if c.id = some conversationId then
      (true, rest)
    else
      let r := fallbackDeleteConversation rest conversationId
      (r.1, c :: r.2)

/-- Storage._fallbackClearAllConversations (src/js/storage.js:623-626). -/
def fallbackClearAllConversations (_fb : List Conversation) : Bool × List Conversation :=
  (true, [])

/-- IndexedDB `conversations` object store (`keyPath: 'id'`,
`autoIncrement: true`, created in Storage._createSchema,
src/js/storage.js:212-219): the records in key order together with the key
generator's next value. The generator starts at 1, increments on every `add`,
and is not reset by `clear()`. -/
structure IDB where
  records : List Conversation
  nextKey : Nat
  deriving DecidableEq, Repr

/-- Freshly created database after the version-1 migration. -/
def freshIDB : IDB := { records := [], nextKey := 1 }

/-- Storage._addToStore (src/js/storage.js:728-737) on the conversations
store: `store.add(data)` lets the key generator assign the next integer key,
injects it into the record's `id` field (keyPath + autoIncrement), and
resolves with the new key. Keys increase, so appending keeps key order. -/
def addToStore (db : IDB) (data : Conversation) : Nat × IDB :=
  let key := db.nextKey
  (key, { records := db.records ++ [{ data with id := some key }]
          nextKey := key + 1 })

/-- Storage._getFromStore (src/js/storage.js:743-752): `store.get(key)`
resolves with the record under that key or `undefined`. -/
def getFromStore (db : IDB) (key : Nat) : Option Conversation :=
  db.records.find? (fun c => c.id = some key)

/-- Storage._getAllFromStore (src/js/storage.js:758-767): `store.getAll()`
resolves with every stored record, in full, in key order. -/
def getAllFromStore (db : IDB) : List Conversation :=
  db.records

/-- IndexedDB `store.put(record)` inside the append transaction: replaces the
record stored under the same key. -/
def putToStore (db : IDB) (data : Conversation) : IDB :=
  { db with records := db.records.map (fun c => if c.id = data.id then data else c) }

/-- Storage._deleteFromStore (src/js/storage.js:773-782): `store.delete(key)`
removes the record under the key (idempotent) and resolves with `true`. -/
def deleteFromStore (db : IDB) (key : Nat) : Bool × IDB :=
  (true, { db with records := db.records.filter (fun c => c.id ≠ some key) })

/-- Storage._clearStore (src/js/storage.js:788-797): `store.clear()` removes
every record; the key generator is not reset. -/
def clearStore (db : IDB) : Bool × IDB :=
  (true, { db with records := [] })

/-- Storage._updateConversationMessages (src/js/storage.js:453-479):
read-modify-write transaction — `get` the record, reject with a not-found
error when absent, otherwise push the message, refresh `updatedAt` and `put`
the record back. `none` models the rejected promise. -/
def updateConversationMessages (db : IDB) (conversationId : Nat)
    (message : Message) (now : Nat) : Option IDB :=
  match getFromStore db conversationId with
  | none => none
  | some conversation =>
    some (putToStore db
      { conversation with
          messages := conversation.messages ++ [message]
          updatedAt := now })

/-- Backend state owned by the facade after initialization: the IndexedDB
handle (`Storage._db`, `null` when the open failed) and the in-memory
fallback array (`Storage._fallbackStore.conversations`). -/
structure StorageState where
  db : Option IDB
  fallback : List Conversation
  deriving DecidableEq, Repr

/-- Storage.startConversation (src/js/storage.js:382-406): builds the fresh
record, inserts it through `_addToStore` when the database is available, and
falls back to the in-memory array when the handle is absent or — `dbFails` —
the transaction throws. Returns the assigned id. -/
def startConversation (st : StorageState) (title : Option String) (now : Nat)
    (dbFails : Bool) : Nat × StorageState :=
  let conversation := mkConversation title now
  match st.db with
  | some db =>
    if dbFails then
      let r := fallbackStartConversation st.fallback conversation
      (r.1, { st with fallback := r.2 })
    else
      let r := addToStore db conversation
      (r.1, { st with db := some r.2 })
  | none =>
    let r := fallbackStartConversation st.fallback conversation
    (r.1, { st with fallback := r.2 })

/-- Storage.addMessage (src/js/storage.js:425-447): enriches the message with
metadata, then runs the read-modify-write transaction when the database is
available; any transaction error (`dbFails`, or the not-found rejection from
`_updateConversationMessages`) is caught and retried against the in-memory
fallback. Returns the success flag. -/
def addMessage (st : StorageState) (conversationId : Nat) (message : MsgInput)
    (now : Nat) (rand : String) (dbFails : Bool) : Bool × StorageState :=
  let messageWithMeta := mkMessageWithMeta message now rand
  match st.db with
  | some db =>
    if dbFails then
      let r := fallbackAddMessage st.fallback conversationId messageWithMeta now
      (r.1, { st with fallback := r.2 })
    else
      match updateConversationMessages db conversationId messageWithMeta now with
      | some db2 => (true, { st with db := some db2 })
      | none =>
        let r := fallbackAddMessage st.fallback conversationId messageWithMeta now
        (r.1, { st with fallback := r.2 })
  | none =>
    let r := fallbackAddMessage st.fallback conversationId messageWithMeta now
    (r.1, { st with fallback := r.2 })

/-- Storage.fetchConversation (src/js/storage.js:502-518): `_getFromStore`
when the database is available (falling back on a transaction error),
otherwise the in-memory lookup; `none` models the `null`/`undefined`
not-found result. -/
def fetchConversation (st : StorageState) (conversationId : Nat)
    (dbFails : Bool) : Option Conversation :=
  match st.db with
  | some db =>
    if dbFails then fallbackFetchConversation st.fallback conversationId
    else getFromStore db conversationId
  | none => fallbackFetchConversation st.fallback conversationId

/-- Result of Storage.fetchAllConversations: the durable path resolves with
the full records from `getAll()`, the fallback path with the summary
projection — the two shapes differ. -/
inductive FetchAllResult where
  | fullRecords (cs : List Conversation)
  | summaries (ss : List ConversationSummary)
  deriving DecidableEq, Repr

/-- Storage.fetchAllConversations (src/js/storage.js:532-545):
`_getAllFromStore` on the durable path (full records), the summary projection
on the fallback path. -/
def fetchAllConversations (st : StorageState) (dbFails : Bool) : FetchAllResult :=
  match st.db with
  | some db =>
    if dbFails then .summaries (fallbackFetchAllConversations st.fallback)
    else .fullRecords (getAllFromStore db)
  | none => .summaries (fallbackFetchAllConversations st.fallback)

/-- Storage.deleteConversation (src/js/storage.js:567-583). -/
def deleteConversation (st : StorageState) (conversationId : Nat)
    (dbFails : Bool) : Bool × StorageState :=
  match st.db with
  | some db =>
    if dbFails then
      let r := fallbackDeleteConversation st.fallback conversationId
      (r.1, { st with fallback := r.2 })
    else
      let r := deleteFromStore db conversationId
      (r.1, { st with db := some r.2 })
  | none =>
    let r := fallbackDeleteConversation st.fallback conversationId
    (r.1, { st with fallback := r.2 })

/-- Storage.clearAllConversations (src/js/storage.js:604-617). -/
def clearAllConversations (st : StorageState) (dbFails : Bool) :
    Bool × StorageState :=
  match st.db with
  | some db =>
    if dbFails then
      let r := fallbackClearAllConversations st.fallback
      (r.1, { st with fallback := r.2 })
    else
      let r := clearStore db
      (r.1, { st with db := some r.2 })
  | none =>
    let r := fallbackClearAllConversations st.fallback
    (r.1, { st with fallback := r.2 })

/-- Initialization bookkeeping of the facade (src/js/storage.js:133-138):
the `_initialized` flag, whether `_initPromise` has been set, and — for the
single-flight property — a count of how many times the backend open has been
attempted (`indexedDB.open` is issued synchronously inside
`_performInitialization` before its first suspension point, so the attempt is
part of the same atomic prefix that sets `_initPromise`). -/
structure InitState where
  initialized : Bool
  initPromiseSet : Bool
  openAttempts : Nat
  deriving DecidableEq, Repr

/-- State at module load: not initialized, no in-flight promise, no opens. -/
def freshInitState : InitState :=
  { initialized := false, initPromiseSet := false, openAttempts := 0 }

/-- What one call to Storage.initialize observes: an immediate return on the
`_initialized` fast path, or an await of the (shared) in-flight promise. -/
inductive InitCallResult where
  | immediate
  | awaitedInflight
  deriving DecidableEq, Repr

/-- Synchronous prefix of one Storage.initialize call
(src/js/storage.js:146-158), which runs atomically on the single-threaded
event loop: return at once when already initialized; join the existing
in-flight promise when one is set; otherwise set `_initPromise` by starting
`_performInitialization`, whose synchronous prefix issues the one backend
open attempt. -/
def initCall (s : InitState) : InitCallResult × InitState :=
  if s.initialized then (.immediate, s)
  else if s.initPromiseSet then (.awaitedInflight, s)
  else (.awaitedInflight,
    { s with initPromiseSet := true, openAttempts := s.openAttempts + 1 })

/-- A burst of initialize calls whose synchronous prefixes all run before the
open completes (concurrent callers on the event loop), in call order. -/
def initCalls (s : InitState) : Nat → List InitCallResult × InitState
  | 0 => ([], s)
  | n + 1 =>
    let r := initCall s
    let rest := initCalls r.2 n
    (r.1 :: rest.1, rest.2)

/-- Outcome of the one `indexedDB.open` attempt: the opened database, or the
error carried by the rejected open request. -/
abbrev OpenResult := Except String IDB

/-- Completion of Storage._performInitialization (src/js/storage.js:165-175)
once the open attempt settles: on success `_db` is set and `_initialized`
becomes true; on failure the `catch` branch logs, sets `_initialized` true
and leaves `_db` null so every operation takes the fallback path. The
function returns normally in both branches — no exception escapes, which the
plain (non-`Except`) result type records. -/
def completeInit (s : InitState) (openResult : OpenResult) :
    InitState × Option IDB :=
  match openResult with
  | .ok db => ({ s with initialized := true }, some db)
  | .error _ => ({ s with initialized := true }, none)

/-- Backend the facade ends up using, as `_isDbAvailable`
(src/js/storage.js:252-254) decides it from the shared `_db` handle. -/
inductive Backend where
  | durable
  | inMemory
  deriving DecidableEq, Repr

/-- Backend selection read by every caller from the single shared handle. -/
def backendOf (db : Option IDB) : Backend :=
  match db with
  | some _ => .durable
  | none => .inMemory

/-- Facade state right after `_performInitialization` settles: the chosen
handle next to the untouched, empty in-memory fallback array. -/
def postInitStorage (openResult : OpenResult) : StorageState :=
  { db := (completeInit freshInitState openResult).2, fallback := [] }

/-- Snapshot document (src/js/storage.js:651-659): `{version, exportDate,
data: {conversations, preferences, profile}}`. The optional fields model the
importer's truthiness guards (`if (snapshot.data.preferences)`,
`Array.isArray(snapshot.data.conversations)`). -/
structure Snapshot where
  version : Nat
  exportDate : Nat
  conversations : Option (List Conversation)
  preferences : Option (List (String × String))
  profile : Option (List (String × String))
  deriving DecidableEq, Repr

/-- Importer input after JSON parsing: a document with a `data` section, or
one without — on which the shape check throws and the `catch` returns false. -/
inductive ImportDoc where
  | withData (s : Snapshot)
  | noData
  deriving DecidableEq, Repr

/-- Destructuring the conversation as id plus rest in the importer
(src/js/storage.js:701): the original id is stripped. -/
def stripId (c : Conversation) : Conversation :=
  { c with id := none }

/-- Records produced by importing a conversation list into the durable store:
each stripped record re-keyed by consecutive generator values from `k`. -/
def reKeyFrom (cs : List Conversation) (k : Nat) : List Conversation :=
  match cs with
  | [] => []
  | c :: rest => { stripId c with id := some k } :: reKeyFrom rest (k + 1)

/-- Durable-path conversation import: `_addToStore` once per snapshot record,
in snapshot order. -/
def importConversations (db : IDB) (cs : List Conversation) : IDB :=
  cs.foldl (fun acc c => (addToStore acc (stripId c)).2) db

/-- Executable bound check: the record's id, when present, lies below the
given key-generator value (always true for records the generator created). -/
def idBelow (c : Conversation) (bound : Nat) : Bool :=
  c.id.all (fun k => k < bound)

/-- Storage.importDataSnapshot (src/js/storage.js:678-720): shape-check the
document (a missing `data` section throws into the outer `catch`, which
returns false and changes nothing); overwrite preferences and profile when
present; then re-insert each conversation with its id stripped —
`_addToStore` on the durable path, a bare `push` of the id-less record into
the fallback array when the database is absent or (`dbFails`) its
transactions throw. -/
def importDataSnapshot (st : StorageState) (ls : LocalStore) (doc : ImportDoc)
    (dbFails : Bool) : Bool × StorageState × LocalStore :=
  match doc with
  | .noData => (false, st, ls)
  | .withData snapshot =>
    let ls1 := match snapshot.preferences with
      | some p => (savePreferences p ls).2
      | none => ls
    let ls2 := match snapshot.profile with
      | some p => (saveUserProfile p ls1).2
      | none => ls1
    match snapshot.conversations with
    | none => (true, st, ls2)
    | some cs =>
      match st.db with
      | some db =>
        if dbFails then
          (true, { st with fallback := st.fallback ++ cs.map stripId }, ls2)
        else
          (true, { st with db := some (importConversations db cs) }, ls2)
      | none =>
        (true, { st with fallback := st.fallback ++ cs.map stripId }, ls2)

/-- Conversation part of Storage.exportDataSnapshot
(src/js/storage.js:638-649): list the conversations, then refetch each by its
id to obtain the full record, keeping only the ones found. -/
def exportConversations (st : StorageState) : List Conversation :=
  let ids : List (Option Nat) := match fetchAllConversations st false with
    | .fullRecords cs => cs.map (fun c => c.id)
    | .summaries ss => ss.map (fun s => s.id)
  ids.filterMap (fun id? => Option.bind id? (fun k => fetchConversation st k false))

/-- Storage.exportDataSnapshot (src/js/storage.js:635-662): assembles the
snapshot from the refetched conversations, the loaded preferences and the
loaded profile, stamped with `DB_VERSION` (1) and the export time. -/
def exportDataSnapshot (st : StorageState) (ls : LocalStore) (now : Nat) : Snapshot :=
  { version := 1
    exportDate := now
    conversations := some (exportConversations st)
    preferences := some (loadPreferences ls).1
    profile := some (loadUserProfile ls).1 }

/-- Sequential append run: `addMessage` once per entry of `appends` (caller
message, clock reading, random suffix), each call awaited before the next and
none hitting a transaction error. -/
def appendRun (st : StorageState) (conversationId : Nat)
    (appends : List (MsgInput × Nat × String)) : StorageState :=
  appends.foldl
    (fun acc a => (addMessage acc conversationId a.1 a.2.1 a.2.2 false).2) st

/-- Fallback store produced by a sequence of `startConversation` calls alone
(title and clock reading per call), starting from the empty array. -/
def startedStores (inputs : List (Option String × Nat)) : List Conversation :=
  inputs.foldl
    (fun fb a => (fallbackStartConversation fb (mkConversation a.1 a.2)).2) []

/-- Demo run shared by several checks: a fresh durable backend holding one
conversation (id 1, started at time 10) with two messages appended at times
11 and 12. -/
def demoState : StorageState :=
  (addMessage
    (addMessage
      (startConversation { db := some freshIDB, fallback := [] } (some "Chat") 10 false).2
      1 { role := "user", content := "hello", timestamp := none } 11 "ra" false).2
    1 { role := "assistant", content := "hi there", timestamp := none } 12 "rb" false).2

/-- Snapshot exported from the demo run at time 13 with empty localStorage. -/
def demoSnapshot : Snapshot := exportDataSnapshot demoState [] 13

/-- Demo state after `clearAllConversations`: the records are gone but the
key generator still stands at 2. -/
def demoCleared : StorageState := (clearAllConversations demoState false).2

/-- Fallback-backend demo: the facade right after a failed open and one
`startConversation` at time 0, holding the single in-memory conversation 1. -/
def wStart : StorageState :=
  { db := none
    fallback := (fallbackStartConversation [] (mkConversation none 0)).2 }

/-- The record `wStart` holds under id 1. -/
def wC0 : Conversation :=
  { id := some 1
    title := "Conversation 0"
    messages := []
    timestamp := 0
    createdAt := 0
    updatedAt := 0 }

/-- Two timestampless caller messages appended at clock readings 5 and 6. -/
def wAppends : List (MsgInput × Nat × String) :=
  [({ role := "user", content := "hello", timestamp := none }, 5, "r1"),
   ({ role := "assistant", content := "hi", timestamp := none }, 6, "r2")]

/-- Executable non-decreasing check on a list of instants: each element is
at most its successor. -/
def nonDecreasing : List Nat → Bool
  | [] => true
  | [_] => true
  | a :: b :: rest => decide (a ≤ b) && nonDecreasing (b :: rest)

/-! Theorems. -/

/-- C2 counterexample: `loadPreferences` merges nothing over the stored
value. After saving a preference object that omits the recognized `theme`
key, the load returns exactly the stored object and `theme` has no value;
on a fresh store the load returns the empty object, not a default set. -/
theorem loadPreferences_no_defaults_counterexample :
    (loadPreferences (savePreferences [("language", "en")] []).2).1 = [("language", "en")]
    ∧ ((loadPreferences (savePreferences [("language", "en")] []).2).1.find?
        (fun kv => kv.1 = "theme")) = none
    ∧ (loadPreferences []).1 = [] := by
  decide

/-- C2 (amended): `savePreferences` then `loadPreferences` round-trips the
stored object exactly — no defaults are merged under it and nothing else in
`localStorage` is touched; in particular saving
`{theme: dark, language: en}` loads back exactly those two entries. -/
theorem loadPreferences_roundtrip (p : List (String × String)) (ls : LocalStore) :
    loadPreferences (savePreferences p ls).2 = (p, (savePreferences p ls).2) := by
  simp [loadPreferences, savePreferences, getItem, setItem]

/-- C8 counterexample: on a corrupt `userPreferences` entry,
`loadPreferences` returns the empty object but leaves the corrupt entry in
`localStorage` — it is not deleted. -/
theorem loadPreferences_corrupt_not_deleted_counterexample :
    (loadPreferences [("userPreferences", StoredStr.corrupt)]).1 = []
    ∧ getItem (loadPreferences [("userPreferences", StoredStr.corrupt)]).2
        "userPreferences" = some StoredStr.corrupt := by
  decide

/-- C8 (amended): a stored preferences entry that fails to decode is treated
as absent — `loadPreferences` logs and returns the default (empty) object
without raising — but the corrupt entry stays in storage untouched. -/
theorem loadPreferences_corrupt_returns_default (ls : LocalStore)
    (h : getItem ls "userPreferences" = some StoredStr.corrupt) :
    loadPreferences ls = ([], ls) := by
  unfold loadPreferences
  rw [h]

/-- C8 witness: the amended theorem applied to the store holding exactly one
corrupt `userPreferences` entry. -/
theorem loadPreferences_corrupt_returns_default_witness :
    getItem [("userPreferences", StoredStr.corrupt)] "userPreferences"
        = some StoredStr.corrupt
    ∧ loadPreferences [("userPreferences", StoredStr.corrupt)]
        = ([], [("userPreferences", StoredStr.corrupt)]) :=
  ⟨by decide, loadPreferences_corrupt_returns_default _ (by decide)⟩

/-- C3 counterexample: in the fallback store, start two conversations
(ids 1 and 2), delete conversation 1, then start another: the new
conversation is assigned `length + 1 = 2`, an id still held by a live
conversation — ids are neither unique nor never-reused after deletion. -/
theorem fallback_id_reuse_counterexample :
    ((fallbackStartConversation
        (fallbackDeleteConversation
          (fallbackStartConversation
            (fallbackStartConversation [] (mkConversation none 0)).2
            (mkConversation none 1)).2
          1).2
        (mkConversation none 2)).2).map (fun c => c.id) = [some 2, some 2] := by
  decide

/-- Helper for C3: folding `_fallbackStartConversation` over any input list
appends records whose ids continue counting up from the current length. -/
theorem foldStarts_ids (inputs : List (Option String × Nat)) :
    ∀ fb : List Conversation,
      ((inputs.foldl
          (fun fb a => (fallbackStartConversation fb (mkConversation a.1 a.2)).2)
          fb).map (fun c => c.id))
        = fb.map (fun c => c.id)
          ++ (List.range inputs.length).map (fun i => some (fb.length + i + 1)) := by
  induction inputs with
  | nil => intro fb; simp
  | cons a rest ih =>
    intro fb
    rw [List.foldl_cons, ih]
    simp only [fallbackStartConversation, List.map_append, List.length_append,
      List.map_cons, List.map_nil, List.length_cons, List.length_nil,
      List.append_assoc, List.length_range]
    congr 1
    rw [List.range_succ_eq_map, List.map_cons, List.map_map]
    simp only [Nat.zero_add, List.singleton_append, List.cons.injEq,
      Option.some.injEq]
    refine ⟨trivial, List.map_congr_left ?_⟩
    intro i _
    simp only [Function.comp_apply, Option.some.injEq]
    omega

/-- C3 (amended): across any sequence of `startConversation` calls alone (no
deletions), the fallback store assigns ids 1, 2, …, N in order — unique and
monotonically increasing; the never-reused-after-deletion part of the claim
fails, as the counterexample shows. -/
theorem fallback_ids_monotone_without_deletion (inputs : List (Option String × Nat)) :
    (startedStores inputs).map (fun c => c.id)
      = (List.range inputs.length).map (fun i => some (i + 1))
    ∧ ((startedStores inputs).map (fun c => c.id)).Nodup := by
  unfold startedStores
  have h := foldStarts_ids inputs []
  simp only [List.map_nil, List.length_nil, List.nil_append, Nat.zero_add] at h
  refine ⟨h, ?_⟩
  rw [h]
  refine List.Nodup.map ?_ (List.nodup_range _)
  intro a b hab
  simp only [Option.some.injEq] at hab
  omega

/-- C4: with the durable backend active, `fetchAllConversations` resolves
with the full records from `getAll()` — the demo state's single conversation
comes back with both message bodies embedded, contradicting the claimed (and
doc-commented) summary-only shape. -/
theorem fetchAllConversations_durable_embeds_messages :
    fetchAllConversations demoState false
      = .fullRecords
          [{ id := some 1
             title := "Chat"
             messages :=
               [{ role := "user", content := "hello", timestamp := 11, id := "msg_11_ra" },
                { role := "assistant", content := "hi there", timestamp := 12, id := "msg_12_rb" }]
             timestamp := 10
             createdAt := 10
             updatedAt := 12 }] := by
  decide

/-- Helper for C5: while an attempt is in flight, further initialize calls
join it without opening again or touching the state. -/
theorem initCalls_inflight (k : Nat) (n : Nat) :
    initCalls { initialized := false, initPromiseSet := true, openAttempts := k } n
      = (List.replicate n .awaitedInflight,
         { initialized := false, initPromiseSet := true, openAttempts := k }) := by
  induction n with
  | zero => rfl
  | succ m ih =>
    rw [initCalls]
    simp only [initCall, Bool.false_eq_true, if_false, if_true, ih]
    rfl

/-- Helper for C5: once initialized, every initialize call returns
immediately and changes nothing. -/
theorem initCalls_after_done (s : InitState) (h : s.initialized = true) (m : Nat) :
    initCalls s m = (List.replicate m .immediate, s) := by
  induction m with
  | zero => rfl
  | succ k ih =>
    rw [initCalls]
    simp only [initCall, h, if_true, ih]
    rfl

/-- C5: any burst of `n + 1` initialize calls issued before the open settles
performs exactly one backend-open attempt, every caller awaits that single
in-flight attempt, the facade ends up initialized with one shared backend
selection determined by the open outcome, and every later call returns
immediately without reopening. -/
theorem initialize_single_flight (n : Nat) (openResult : OpenResult) (m : Nat) :
    (initCalls freshInitState (n + 1)).2.openAttempts = 1
    ∧ (initCalls freshInitState (n + 1)).1
        = List.replicate (n + 1) .awaitedInflight
    ∧ (completeInit (initCalls freshInitState (n + 1)).2 openResult).1.initialized = true
    ∧ backendOf (completeInit (initCalls freshInitState (n + 1)).2 openResult).2
        = (match openResult with | .ok _ => .durable | .error _ => .inMemory)
    ∧ initCalls (completeInit (initCalls freshInitState (n + 1)).2 openResult).1 m
        = (List.replicate m .immediate,
           (completeInit (initCalls freshInitState (n + 1)).2 openResult).1) := by
  have hburst : initCalls freshInitState (n + 1)
      = (List.replicate (n + 1) InitCallResult.awaitedInflight,
         { initialized := false, initPromiseSet := true, openAttempts := 1 }) := by
    rw [initCalls]
    simp only [initCall, freshInitState, Bool.false_eq_true, if_false,
      initCalls_inflight]
    rfl
  rw [hburst]
  cases openResult with
  | ok db =>
    refine ⟨rfl, rfl, rfl, rfl, ?_⟩
    exact initCalls_after_done _ rfl m
  | error e =>
    refine ⟨rfl, rfl, rfl, rfl, ?_⟩
    exact initCalls_after_done _ rfl m

/-- C6: when the backend open fails with any error, initialization still
returns normally with the facade initialized, the handle null (so the
in-memory backend is selected), and every subsequent operation succeeds
against the freshly-started empty fallback store: listing is empty, any
fetch is a clean not-found, a new conversation gets id 1, a message append
to it succeeds, and clearing is a no-op success. -/
theorem init_failure_selects_empty_fallback (e : String) (title : Option String)
    (now now2 : Nat) (cid : Nat) (m : MsgInput) (rand : String) :
    (completeInit freshInitState (.error e)).1.initialized = true
    ∧ (postInitStorage (.error e)).db = none
    ∧ backendOf (postInitStorage (.error e)).db = .inMemory
    ∧ (postInitStorage (.error e)).fallback = []
    ∧ fetchAllConversations (postInitStorage (.error e)) false = .summaries []
    ∧ fetchConversation (postInitStorage (.error e)) cid false = none
    ∧ (startConversation (postInitStorage (.error e)) title now false).1 = 1
    ∧ (addMessage
        (startConversation (postInitStorage (.error e)) title now false).2
        1 m now2 rand false).1 = true
    ∧ clearAllConversations (postInitStorage (.error e)) false
        = (true, postInitStorage (.error e)) := by
  refine ⟨rfl, rfl, rfl, rfl, rfl, rfl, rfl, ?_, rfl⟩
  simp [postInitStorage, completeInit, startConversation, addMessage,
    fallbackStartConversation, fallbackAddMessage]

/-- Helper for C10: when no fallback record carries the id, the in-memory
append reports failure and returns the array unchanged. -/
theorem fallbackAddMessage_not_found (fb : List Conversation) (cid : Nat)
    (msg : Message) (now : Nat)
    (h : fallbackFetchConversation fb cid = none) :
    fallbackAddMessage fb cid msg now = (false, fb) := by
  induction fb with
  | nil => rfl
  | cons c rest ih =>
    unfold fallbackFetchConversation at h ih
    rw [List.find?_cons] at h
    by_cases hc : c.id = some cid
    · simp [hc] at h
    · rw [fallbackAddMessage]
      simp only [hc, if_false]
      rw [ih (by simpa [hc] using h)]

/-- C10: a call to `addMessage` with a conversation id that neither backend
holds returns `false` instead of throwing and leaves the whole store state —
durable records and fallback array alike — exactly as it was, whether or not
the durable transaction fails. -/
theorem addMessage_missing_id_noop (st : StorageState) (cid : Nat)
    (m : MsgInput) (now : Nat) (rand : String) (dbFails : Bool)
    (hdurable : fetchConversation st cid false = none)
    (hfb : fallbackFetchConversation st.fallback cid = none) :
    addMessage st cid m now rand dbFails = (false, st) := by
  obtain ⟨sdb, sfb⟩ := st
  have hstep := fallbackAddMessage_not_found sfb cid
    (mkMessageWithMeta m now rand) now hfb
  cases sdb with
  | none =>
    simp only [addMessage, hstep]
  | some db =>
    have hget : getFromStore db cid = none := by
      simpa [fetchConversation] using hdurable
    cases dbFails with
    | true =>
      simp only [addMessage, if_true, hstep]
    | false =>
      simp only [addMessage, Bool.false_eq_true, if_false,
        updateConversationMessages, hget, hstep]

/-- C7: when a single durable transaction fails, that one `addMessage` (or
`startConversation`) call completes against the in-memory path — the
fallback array receives the write and the call returns the fallback's
result — while the durable handle and its records stay untouched; the
durable backend is not disabled: the very next operation with a healthy
transaction runs against it again (a subsequent `startConversation` inserts
into the durable store and returns its generator key). -/
theorem per_operation_fallback (st : StorageState) (db : IDB) (cid : Nat)
    (m : MsgInput) (now : Nat) (rand : String) (title : Option String)
    (now2 : Nat) (hdb : st.db = some db) :
    (addMessage st cid m now rand true).2.db = some db
    ∧ (addMessage st cid m now rand true).2.fallback
        = (fallbackAddMessage st.fallback cid (mkMessageWithMeta m now rand) now).2
    ∧ (addMessage st cid m now rand true).1
        = (fallbackAddMessage st.fallback cid (mkMessageWithMeta m now rand) now).1
    ∧ (startConversation st title now2 true).2.db = some db
    ∧ (startConversation st title now2 true).1 = st.fallback.length + 1
    ∧ (startConversation (addMessage st cid m now rand true).2 title now2 false).2.db
        = some (addToStore db (mkConversation title now2)).2
    ∧ (startConversation (addMessage st cid m now rand true).2 title now2 false).1
        = db.nextKey := by
  obtain ⟨sdb, sfb⟩ := st
  cases hdb
  refine ⟨rfl, rfl, rfl, rfl, rfl, rfl, rfl⟩

/-- C7 witness: the per-operation fallback theorem applied to the demo state
(durable backend holding conversation 1). -/
theorem per_operation_fallback_witness :
    demoState.db = some (demoState.db.getD freshIDB)
    ∧ (addMessage demoState 1
        { role := "user", content := "again", timestamp := none } 20 "rc" true).2.db
        = demoState.db
    ∧ (startConversation (addMessage demoState 1
        { role := "user", content := "again", timestamp := none } 20 "rc" true).2
        (some "Next") 21 false).1 = 2 :=
  ⟨by decide,
    by
      have h := per_operation_fallback demoState (demoState.db.getD freshIDB) 1
        { role := "user", content := "again", timestamp := none } 20 "rc"
        (some "Next") 21 (by decide)
      rw [h.1]
      decide,
    by
      have h := per_operation_fallback demoState (demoState.db.getD freshIDB) 1
        { role := "user", content := "again", timestamp := none } 20 "rc"
        (some "Next") 21 (by decide)
      rw [h.2.2.2.2.2.2]
      decide⟩

/-- C1 counterexample: two sequential, awaited appends that carry explicit
timestamps 100 then 50 land in append order, but the fetched conversation's
timestamps are [100, 50] — not non-decreasing, because `addMessage` keeps a
caller-supplied timestamp as is. -/
theorem appended_timestamps_can_decrease_counterexample :
    ((fetchConversation
        (addMessage
          (addMessage
            { db := none
              fallback := (fallbackStartConversation [] (mkConversation none 0)).2 }
            1 { role := "user", content := "a", timestamp := some 100 } 5 "r1" false).2
          1 { role := "user", content := "b", timestamp := some 50 } 6 "r2" false).2
        1 false).map (fun c => c.messages.map (fun mm => mm.timestamp)))
      = some [100, 50]
    ∧ nonDecreasing [100, 50] = false := by
  constructor
  · decide
  · decide

/-- Helper for C1: an in-memory append onto a present conversation succeeds,
appends the message to the first matching record and refreshes its
`updatedAt`, and the updated record is what a fetch then finds. -/
theorem fallbackAddMessage_found (fb : List Conversation) (cid : Nat)
    (msg : Message) (now : Nat) (c : Conversation)
    (h : fallbackFetchConversation fb cid = some c) :
    (fallbackAddMessage fb cid msg now).1 = true
    ∧ fallbackFetchConversation (fallbackAddMessage fb cid msg now).2 cid
        = some { c with messages := c.messages ++ [msg], updatedAt := now } := by
  induction fb with
  | nil => simp [fallbackFetchConversation] at h
  | cons d rest ih =>
    unfold fallbackFetchConversation at h
    rw [List.find?_cons] at h
    by_cases hd : d.id = some cid
    · simp [hd] at h
      subst h
      constructor
      · simp [fallbackAddMessage, hd]
      · unfold fallbackFetchConversation
        simp only [fallbackAddMessage, hd, if_true]
        rw [List.find?_cons]
        simp [hd]
    · simp [hd] at h
      have ihr := ih h
      constructor
      · simp only [fallbackAddMessage, hd, if_false]
        exact ihr.1
      · simp only [fallbackAddMessage, hd, if_false]
        unfold fallbackFetchConversation at ihr ⊢
        rw [List.find?_cons]
        simp only [hd, decide_eq_false, Bool.false_eq_true]
        simpa using ihr.2

/-- Helper for C1: `put` of a record carrying the same key as a found record
replaces it, and a subsequent `get` on that key returns the new record. -/
theorem find_put_found (rs : List Conversation) (cid : Nat) (c c2 : Conversation)
    (h : rs.find? (fun r => r.id = some cid) = some c) (hid : c2.id = c.id) :
    ((rs.map (fun r => if r.id = c2.id then c2 else r)).find?
      (fun r => r.id = some cid)) = some c2 := by
  have hcid : c.id = some cid := by
    have := List.find?_some h
    exact of_decide_eq_true this
  induction rs with
  | nil => simp at h
  | cons d rest ih =>
    rw [List.find?_cons] at h
    by_cases hd : d.id = some cid
    · simp [hd] at h
      subst h
      rw [List.map_cons, List.find?_cons]
      have hdc : d.id = c2.id := by rw [hid]
      simp only [hdc, if_true]
      have : c2.id = some cid := by rw [hid, hcid]
      simp [this]
    · simp [hd] at h
      rw [List.map_cons, List.find?_cons]
      have hd2 : ¬ d.id = c2.id := by
        rw [hid, hcid]
        exact hd
      simp only [hd2, if_false]
      have hskip : (decide (d.id = some cid)) = false := by
        simpa using hd
      rw [hskip]
      exact ih h

/-- Helper for C1: one healthy, awaited `addMessage` on a conversation the
active backend holds succeeds, and fetching afterwards sees the message
appended and `updatedAt` refreshed — on either backend. -/
theorem addMessage_found_step (st : StorageState) (cid : Nat) (m : MsgInput)
    (now : Nat) (rand : String) (c : Conversation)
    (h : fetchConversation st cid false = some c) :
    (addMessage st cid m now rand false).1 = true
    ∧ fetchConversation (addMessage st cid m now rand false).2 cid false
        = some { c with
            messages := c.messages ++ [mkMessageWithMeta m now rand]
            updatedAt := now } := by
  obtain ⟨sdb, sfb⟩ := st
  cases sdb with
  | none =>
    have h2 : fallbackFetchConversation sfb cid = some c := h
    have r := fallbackAddMessage_found sfb cid (mkMessageWithMeta m now rand) now c h2
    exact ⟨r.1, r.2⟩
  | some db =>
    have hget : getFromStore db cid = some c := h
    refine ⟨?_, ?_⟩
    · simp only [addMessage, Bool.false_eq_true, if_false,
        updateConversationMessages, hget]
    · simp only [addMessage, Bool.false_eq_true, if_false,
        updateConversationMessages, hget]
      have := find_put_found db.records cid c
        { c with messages := c.messages ++ [mkMessageWithMeta m now rand]
                 updatedAt := now }
        hget rfl
      simpa [fetchConversation, getFromStore, putToStore] using this

/-- Helper for C1: a sequential, awaited, failure-free append run on a
conversation the active backend holds accumulates exactly the enriched
messages in call order, with `updatedAt` ending at the last append's clock
reading. -/
theorem appendRun_found (cid : Nat) (appends : List (MsgInput × Nat × String)) :
    ∀ (st : StorageState) (c : Conversation),
      fetchConversation st cid false = some c →
      fetchConversation (appendRun st cid appends) cid false
        = some { c with
            messages := c.messages
              ++ appends.map (fun a => mkMessageWithMeta a.1 a.2.1 a.2.2)
            updatedAt := (appends.map (fun a => a.2.1)).getLastD c.updatedAt } := by
  induction appends with
  | nil =>
    intro st c h
    obtain ⟨ci, ct, cm, cts, cca, cua⟩ := c
    simpa [appendRun] using h
  | cons a rest ih =>
    intro st c h
    have step := addMessage_found_step st cid a.1 a.2.1 a.2.2 c h
    have tail := ih (addMessage st cid a.1 a.2.1 a.2.2 false).2 _ step.2
    have hrun : appendRun st cid (a :: rest)
        = appendRun (addMessage st cid a.1 a.2.1 a.2.2 false).2 cid rest := rfl
    rw [hrun, List.map_cons, List.map_cons, List.getLastD_cons, List.append_cons]
    exact tail

/-- C1 (amended): for a conversation the active backend holds with an empty
message sequence, ANY sequence of N caller messages — with or without their
own timestamps — appended one at a time, each call awaited and failure-free,
is returned by `fetchConversation` as exactly those N enriched messages in
append order, with `updatedAt` equal to the last append's time (unchanged
when N = 0). The non-decreasing-timestamps clause alone is conditional: when
the callers omit message timestamps and the clock readings are
non-decreasing, the stored timestamps are the clock readings and hence
non-decreasing — but not for caller-supplied timestamps, as the
counterexample shows. -/
theorem sequential_appends_in_order (st : StorageState) (cid : Nat)
    (appends : List (MsgInput × Nat × String)) (c0 : Conversation)
    (h0 : fetchConversation st cid false = some c0)
    (hempty : c0.messages = []) :
    ∃ c1,
      fetchConversation (appendRun st cid appends) cid false = some c1
      ∧ c1.messages = appends.map (fun a => mkMessageWithMeta a.1 a.2.1 a.2.2)
      ∧ c1.messages.map (fun mm => (mm.role, mm.content))
          = appends.map (fun a => (a.1.role, a.1.content))
      ∧ c1.updatedAt = (appends.map (fun a => a.2.1)).getLastD c0.updatedAt
      ∧ ((∀ a ∈ appends, a.1.timestamp = none) →
          nonDecreasing (appends.map (fun a => a.2.1)) = true →
          c1.messages.map (fun mm => mm.timestamp) = appends.map (fun a => a.2.1)
          ∧ nonDecreasing (c1.messages.map (fun mm => mm.timestamp)) = true) := by
  have hmain := appendRun_found cid appends st c0 h0
  rw [hempty] at hmain
  have hmsgs : ({ c0 with
      messages := [] ++ appends.map (fun a => mkMessageWithMeta a.1 a.2.1 a.2.2)
      updatedAt := (appends.map (fun a => a.2.1)).getLastD c0.updatedAt
      : Conversation }).messages
      = appends.map (fun a => mkMessageWithMeta a.1 a.2.1 a.2.2) := by
    simp
  refine ⟨_, hmain, hmsgs, ?_, by simp, ?_⟩
  · rw [hmsgs, List.map_map]
    refine List.map_congr_left ?_
    intro a _
    rfl
  · intro hts hchain
    have hts2 : (appends.map (fun a => mkMessageWithMeta a.1 a.2.1 a.2.2)).map
        (fun mm => mm.timestamp) = appends.map (fun a => a.2.1) := by
      rw [List.map_map]
      refine List.map_congr_left ?_
      intro a ha
      simp [mkMessageWithMeta, hts a ha]
    constructor
    · rw [hmsgs]
      exact hts2
    · rw [hmsgs, hts2]
      exact hchain

/-- C1 witness: the amended theorem applied to a fresh fallback conversation
(id 1) with two timestampless caller messages appended at times 5 and 6,
instantiating both the unconditional clauses and the conditional
timestamps clause. -/
theorem sequential_appends_in_order_witness :
    ∃ c1,
      fetchConversation (appendRun wStart 1 wAppends) 1 false = some c1
      ∧ c1.messages = wAppends.map (fun a => mkMessageWithMeta a.1 a.2.1 a.2.2)
      ∧ c1.messages.map (fun mm => (mm.role, mm.content))
          = wAppends.map (fun a => (a.1.role, a.1.content))
      ∧ c1.updatedAt = (wAppends.map (fun a => a.2.1)).getLastD wC0.updatedAt
      ∧ c1.messages.map (fun mm => mm.timestamp) = wAppends.map (fun a => a.2.1)
      ∧ nonDecreasing (c1.messages.map (fun mm => mm.timestamp)) = true := by
  obtain ⟨c1, hfetch, hmsgs, hrc, hupd, hcond⟩ :=
    sequential_appends_in_order wStart 1 wAppends wC0 (by decide) (by decide)
  obtain ⟨htimes, hnd⟩ := hcond (by decide) (by decide)
  exact ⟨c1, hfetch, hmsgs, hrc, hupd, htimes, hnd⟩

/-- Helper for C9: importing a conversation list into the durable store
appends each record, id stripped, under consecutive fresh generator keys and
advances the generator past them. -/
theorem importConversations_spec (cs : List Conversation) :
    ∀ db : IDB,
      importConversations db cs
        = { records := db.records ++ reKeyFrom cs db.nextKey
            nextKey := db.nextKey + cs.length } := by
  induction cs with
  | nil =>
    intro db
    obtain ⟨rs, k⟩ := db
    simp [importConversations, reKeyFrom]
  | cons c rest ih =>
    intro db
    have hstep : importConversations db (c :: rest)
        = importConversations (addToStore db (stripId c)).2 rest := rfl
    rw [hstep, ih]
    simp only [addToStore, reKeyFrom, List.length_cons]
    refine congrArg₂ IDB.mk ?_ ?_
    · rw [List.append_assoc]
      rfl
    · omega

/-- Helper for C9: every record produced by the re-keying carries an id at
or above the starting generator value (and below it plus the batch size). -/
theorem reKeyFrom_mem_id (cs : List Conversation) :
    ∀ k r, r ∈ reKeyFrom cs k → ∃ j, j < cs.length ∧ r.id = some (k + j) := by
  induction cs with
  | nil =>
    intro k r hr
    simp [reKeyFrom] at hr
  | cons c rest ih =>
    intro k r hr
    rw [reKeyFrom] at hr
    rcases List.mem_cons.mp hr with hr | hr
    · refine ⟨0, by simp, ?_⟩
      rw [hr]
      simp
    · obtain ⟨j, hj, hid⟩ := ih (k + 1) r hr
      refine ⟨j + 1, by simpa using Nat.succ_lt_succ hj, ?_⟩
      rw [hid]
      congr 1
      omega

/-- C9: importing a valid snapshot into the durable backend succeeds and
re-inserts every snapshot conversation with its original id stripped and a
fresh generator key assigned — one that collides neither with any id already
stored nor with any original id carried by the snapshot itself — so import
does not preserve identity; importing the same snapshot again appends a
second batch of copies under yet higher keys instead of upserting. -/
theorem import_rekeys_fresh_ids (st : StorageState) (ls : LocalStore)
    (db : IDB) (snap : Snapshot) (cs : List Conversation)
    (hdb : st.db = some db)
    (hcs : snap.conversations = some cs)
    (hold : ∀ c ∈ db.records, idBelow c db.nextKey = true)
    (horig : ∀ c ∈ cs, idBelow c db.nextKey = true) :
    (importDataSnapshot st ls (.withData snap) false).1 = true
    ∧ (importDataSnapshot st ls (.withData snap) false).2.1.db
        = some { records := db.records ++ reKeyFrom cs db.nextKey
                 nextKey := db.nextKey + cs.length }
    ∧ (∀ r ∈ reKeyFrom cs db.nextKey, ∀ c ∈ db.records, r.id ≠ c.id)
    ∧ (∀ r ∈ reKeyFrom cs db.nextKey, ∀ c ∈ cs, r.id ≠ c.id)
    ∧ (importDataSnapshot (importDataSnapshot st ls (.withData snap) false).2.1
          (importDataSnapshot st ls (.withData snap) false).2.2
          (.withData snap) false).2.1.db
        = some { records := db.records ++ reKeyFrom cs db.nextKey
                   ++ reKeyFrom cs (db.nextKey + cs.length)
                 nextKey := db.nextKey + cs.length + cs.length } := by
  obtain ⟨sdb, sfb⟩ := st
  cases hdb
  have hfresh : ∀ r ∈ reKeyFrom cs db.nextKey, ∀ bound, ∀ c : Conversation,
      idBelow c bound = true → db.nextKey ≥ bound → r.id ≠ c.id := by
    intro r hr bound c hc hge heq
    obtain ⟨j, _, hid⟩ := reKeyFrom_mem_id cs db.nextKey r hr
    rw [hid] at heq
    have : c.id = some (db.nextKey + j) := heq.symm
    rw [idBelow, this] at hc
    simp [Option.all] at hc
    omega
  have himp : importDataSnapshot { db := some db, fallback := sfb } ls
      (.withData snap) false
      = (true,
         { db := some (importConversations db cs), fallback := sfb },
         (match snap.profile with
          | some p => (saveUserProfile p
              (match snap.preferences with
               | some q => (savePreferences q ls).2
               | none => ls)).2
          | none =>
            match snap.preferences with
            | some q => (savePreferences q ls).2
            | none => ls)) := by
    rw [importDataSnapshot]
    rw [hcs]
    rfl
  rw [himp]
  have hspec := importConversations_spec cs db
  refine ⟨rfl, by rw [hspec], ?_, ?_, ?_⟩
  · intro r hr c hc
    exact hfresh r hr db.nextKey c (hold c hc) (Nat.le_refl _)
  · intro r hr c hc
    exact hfresh r hr db.nextKey c (horig c hc) (Nat.le_refl _)
  · have himp2 : importDataSnapshot
        { db := some (importConversations db cs), fallback := sfb }
        (match snap.profile with
         | some p => (saveUserProfile p
             (match snap.preferences with
              | some q => (savePreferences q ls).2
              | none => ls)).2
         | none =>
           match snap.preferences with
           | some q => (savePreferences q ls).2
           | none => ls)
        (.withData snap) false
        |>.2.1.db = some (importConversations (importConversations db cs) cs) := by
      rw [importDataSnapshot]
      rw [hcs]
      rfl
    rw [himp2, hspec, importConversations_spec cs]

/-- C9 witness: the export → clear → import scenario. The demo conversation
(id 1, two messages) is exported, the store cleared, the snapshot imported:
the import reports success and re-keys the conversation, the listing shows
exactly one conversation with both messages under the fresh id 2 (different
from the original id 1), and importing the snapshot a second time leaves two
stored copies rather than upserting. -/
theorem import_rekeys_fresh_ids_witness :
    (importDataSnapshot demoCleared [] (.withData demoSnapshot) false).1 = true
    ∧ (importDataSnapshot demoCleared [] (.withData demoSnapshot) false).2.1.db
        = some { records := (demoCleared.db.getD freshIDB).records
                   ++ reKeyFrom (demoSnapshot.conversations.getD [])
                        (demoCleared.db.getD freshIDB).nextKey
                 nextKey := (demoCleared.db.getD freshIDB).nextKey
                   + (demoSnapshot.conversations.getD []).length }
    ∧ (demoSnapshot.conversations.getD []).map (fun c => c.id) = [some 1]
    ∧ fetchAllConversations
        (importDataSnapshot demoCleared [] (.withData demoSnapshot) false).2.1 false
        = .fullRecords
            [{ id := some 2
               title := "Chat"
               messages :=
                 [{ role := "user", content := "hello", timestamp := 11, id := "msg_11_ra" },
                  { role := "assistant", content := "hi there", timestamp := 12,
                    id := "msg_12_rb" }]
               timestamp := 10
               createdAt := 10
               updatedAt := 12 }]
    ∧ (match (importDataSnapshot
          (importDataSnapshot demoCleared [] (.withData demoSnapshot) false).2.1
          (importDataSnapshot demoCleared [] (.withData demoSnapshot) false).2.2
          (.withData demoSnapshot) false).2.1.db with
        | some db => db.records.map (fun c => c.id)
        | none => []) = [some 2, some 3] := by
  have h := import_rekeys_fresh_ids demoCleared [] (demoCleared.db.getD freshIDB)
    demoSnapshot (demoSnapshot.conversations.getD [])
    (by decide) (by decide) (by decide) (by decide)
  exact ⟨h.1, h.2.1, by decide, by decide, by decide⟩

/-- C10 witness: the missing-id theorem applied to the demo state (one
durable conversation with id 1, empty fallback) at the absent id 7. -/
theorem addMessage_missing_id_noop_witness :
    fetchConversation demoState 7 false = none
    ∧ fallbackFetchConversation demoState.fallback 7 = none
    ∧ addMessage demoState 7
        { role := "user", content := "x", timestamp := none } 20 "rz" false
      = (false, demoState) :=
  ⟨by decide, by decide,
    addMessage_missing_id_noop demoState 7
      { role := "user", content := "x", timestamp := none } 20 "rz" false
      (by decide) (by decide)⟩

